import Mathlib

/-!
Verification of the delivery orchestrator in `send_whatsapp.py`
(repository `kankotri-automator`).

Strings are modelled as `List Char`.  Pure helpers (`clean_phone_number`,
`get_safe_filename`, `log_status`) are translated directly; the
per-recipient loop body (lines 118-195 of `send_whatsapp.py`) is modelled
as a function from an environment oracle (filesystem / browser / network
behaviour) to the trace of side effects and the reported delivery attempt.
-/

namespace Kankotri

/-- `COUNTRY_CODE = "+91"` (module-level constant of `send_whatsapp.py`). -/
def COUNTRY_CODE : List Char := ("+91").toList

/-- `clean_phone_number`: `re.sub(r'\D', '', phone)` keeps the digit
characters; fewer than 10 digits yields `None`; otherwise the result is
`COUNTRY_CODE` followed by the last 10 digits (`digits[-10:]`). -/
def clean_phone_number (phone : List Char) : Option (List Char) :=
  let digits := phone.filter Char.isDigit
  if digits.length < 10 then
    none
  else
    some (COUNTRY_CODE ++ digits.drop (digits.length - 10))

/-- The character class `[<>:"/\\|?*]` of the sanitization regex. -/
def isForbidden (c : Char) : Bool :=
  c = '<' || c = '>' || c = ':' || c = '\"' || c = '/' || c = '\\' ||
  c = '|' || c = '?' || c = '*'

/-- Scan implementing `re.sub(r'[<>:"/\\|?*]+', '_', ·)`: the flag records
whether the previous character belonged to the class, so that a maximal
run of class characters contributes a single `'_'`. -/
def sanitizeCore : List Char → Bool → List Char
  | [], _ => []
  | c :: cs, prevForb =>
    if isForbidden c then
      (if prevForb then sanitizeCore cs true else '_' :: sanitizeCore cs true)
    else
      c :: sanitizeCore cs false

/-- Python `str.strip()`: remove leading and trailing whitespace. -/
def strip (l : List Char) : List Char :=
  ((l.dropWhile Char.isWhitespace).reverse.dropWhile Char.isWhitespace).reverse

/-- `get_safe_filename`: `re.sub(r'[<>:"/\\|?*]+', '_', name).strip()`. -/
def get_safe_filename (name : List Char) : List Char :=
  strip (sanitizeCore name false)

/-! ### C1: clean_phone_number -/

theorem filter_isDigit_all (s : List Char) :
    ∀ c ∈ s.filter Char.isDigit, c.isDigit = true := by
  intro c hc
  exact (List.mem_filter.mp hc).2

/-- **C1.** `clean_phone_number` strips every non-digit character (keeping
exactly the digit subsequence); if fewer than 10 digits remain it returns
`none`; otherwise it returns the country prefix `"+91"` followed by exactly
the last 10 digits of the digit string (the leading digits being
discarded). -/
theorem clean_phone_number_correct (phone : List Char) :
    (clean_phone_number phone = none ↔ (phone.filter Char.isDigit).length < 10) ∧
    (∀ r, clean_phone_number phone = some r →
      ∃ discarded last10,
        discarded ++ last10 = phone.filter Char.isDigit ∧
        last10.length = 10 ∧
        r = COUNTRY_CODE ++ last10) := by
  constructor
  · constructor
    · intro h
      by_contra hlt
      simp only [clean_phone_number, if_neg hlt] at h
      exact Option.noConfusion h
    · intro h
      simp only [clean_phone_number, if_pos h]
  · intro r hr
    by_cases hlt : (phone.filter Char.isDigit).length < 10
    · simp only [clean_phone_number, if_pos hlt] at hr
      exact Option.noConfusion hr
    · simp only [clean_phone_number, if_neg hlt, Option.some.injEq] at hr
      refine ⟨(phone.filter Char.isDigit).take ((phone.filter Char.isDigit).length - 10),
              (phone.filter Char.isDigit).drop ((phone.filter Char.isDigit).length - 10),
              List.take_append_drop _ _, ?_, hr.symm⟩
      rw [List.length_drop]
      omega

/-- Witness for C1 at the spec's example input `"+1 (234) 567-8901 ext2"`
(11 digits; the leading `1` is discarded) and at a short input. -/
theorem clean_phone_number_correct_witness :
    clean_phone_number (("123 45-67").toList) = none ∧
    (∃ discarded last10,
      discarded ++ last10 = (("+1 (234) 567-8901 ext2").toList).filter Char.isDigit ∧
      last10.length = 10 ∧
      (("+913456789012").toList) = COUNTRY_CODE ++ last10) := by
  refine ⟨(clean_phone_number_correct (("123 45-67").toList)).1.mpr (by decide), ?_⟩
  exact (clean_phone_number_correct (("+1 (234) 567-8901 ext2").toList)).2
    (("+913456789012").toList) (by decide)

/-! ### C2 / C8: get_safe_filename -/

/-- What claim C2 asserts: each forbidden character is replaced
*individually* by one underscore (so adjacent forbidden characters give
adjacent underscores), then whitespace is trimmed. -/
def get_safe_filename_claim (name : List Char) : List Char :=
  strip (name.map (fun c => if isForbidden c then '_' else c))

theorem length_dropWhile_le (p : Char → Bool) (l : List Char) :
    (l.dropWhile p).length ≤ l.length := by
  induction l with
  | nil => simp
  | cons c cs ih =>
    rw [List.dropWhile_cons]
    by_cases hc : p c = true
    · simp only [if_pos hc, List.length_cons]
      exact Nat.le_succ_of_le ih
    · simp [hc]

/-- Replacement of each *maximal run* of forbidden characters by a single
underscore, phrased directly: on meeting a forbidden character emit one
`'_'` and skip the whole run. -/
def replaceRuns : List Char → List Char
  | [] => []
  | c :: cs =>
    if isForbidden c then '_' :: replaceRuns (cs.dropWhile isForbidden)
    else c :: replaceRuns cs
termination_by l => l.length
decreasing_by
  · simp only [List.length_cons]
    exact Nat.lt_succ_of_le (length_dropWhile_le _ _)
  · simp

theorem sanitizeCore_true_eq (cs : List Char) :
    sanitizeCore cs true = sanitizeCore (cs.dropWhile isForbidden) false := by
  induction cs with
  | nil => rfl
  | cons c cs ih =>
    by_cases hc : isForbidden c = true
    · rw [List.dropWhile_cons, if_pos hc]
      simpa [sanitizeCore, hc] using ih
    · rw [List.dropWhile_cons, if_neg hc]
      simp [sanitizeCore, hc]

theorem replaceRuns_eq_sanitizeCore (l : List Char) :
    replaceRuns l = sanitizeCore l false := by
  have H : ∀ n (l : List Char), l.length ≤ n → replaceRuns l = sanitizeCore l false := by
    intro n
    induction n with
    | zero =>
      intro l hl
      cases l with
      | nil => simp [replaceRuns, sanitizeCore]
      | cons c cs => simp at hl
    | succ n ih =>
      intro l hl
      cases l with
      | nil => simp [replaceRuns, sanitizeCore]
      | cons c cs =>
        simp only [List.length_cons, Nat.succ_le_succ_iff] at hl
        by_cases hc : isForbidden c = true
        · rw [replaceRuns, if_pos hc,
            ih (cs.dropWhile isForbidden) (le_trans (length_dropWhile_le _ _) hl),
            ← sanitizeCore_true_eq]
          simp [sanitizeCore, hc]
        · rw [replaceRuns, if_neg hc, ih cs hl]
          simp [sanitizeCore, hc]
  exact H l.length l le_rfl

/-- **C2 counterexample.** On `"a<>b"` the code collapses the run `<>`
into one underscore, yielding `"a_b"`, while the claim's per-character
replacement demands `"a__b"`. -/
theorem get_safe_filename_not_per_char :
    get_safe_filename (("a<>b").toList) = ("a_b").toList ∧
    get_safe_filename_claim (("a<>b").toList) = ("a__b").toList ∧
    ("a_b").toList ≠ ("a__b").toList := by
  decide

/-- **C2 (amended).** `get_safe_filename` replaces each *maximal run* of
one or more characters from `< > : " / \ | ? *` by a single underscore and
trims surrounding whitespace; in particular adjacent forbidden characters
produce one underscore, not two. -/
theorem get_safe_filename_replaces_runs (name : List Char) :
    get_safe_filename name = strip (replaceRuns name) := by
  rw [replaceRuns_eq_sanitizeCore]
  rfl

theorem sanitizeCore_not_forbidden (l : List Char) :
    ∀ b c, c ∈ sanitizeCore l b → isForbidden c = false := by
  induction l with
  | nil => intro b c hc; simp [sanitizeCore] at hc
  | cons a as ih =>
    intro b c hc
    by_cases ha : isForbidden a = true
    · cases b with
      | true =>
        simp only [sanitizeCore, if_pos ha, if_true] at hc
        exact ih _ _ hc
      | false =>
        simp only [sanitizeCore, if_pos ha, Bool.false_eq_true, if_false,
          List.mem_cons] at hc
        rcases hc with rfl | hc
        · decide
        · exact ih _ _ hc
    · simp only [sanitizeCore, if_neg ha, List.mem_cons] at hc
      rcases hc with rfl | hc
      · simpa using ha
      · exact ih _ _ hc

theorem sanitizeCore_id (l : List Char) :
    ∀ b, (∀ c ∈ l, isForbidden c = false) → sanitizeCore l b = l := by
  induction l with
  | nil => intro b _; rfl
  | cons a as ih =>
    intro b h
    have ha : isForbidden a = false := h a (List.mem_cons_self _ _)
    simp only [sanitizeCore, Bool.not_eq_true, ha]
    rw [ih false (fun c hc => h c (List.mem_cons_of_mem _ hc))]
    simp [ha]

theorem dropWhile_dropWhile (p : Char → Bool) (l : List Char) :
    (l.dropWhile p).dropWhile p = l.dropWhile p := by
  induction l with
  | nil => rfl
  | cons c cs ih =>
    rw [List.dropWhile_cons]
    by_cases hc : p c = true
    · simpa [hc] using ih
    · simp [List.dropWhile_cons, hc]

theorem dropWhile_suffix_ex (p : Char → Bool) (l : List Char) :
    ∃ t, t ++ l.dropWhile p = l := by
  induction l with
  | nil => exact ⟨[], rfl⟩
  | cons c cs ih =>
    rw [List.dropWhile_cons]
    by_cases hc : p c = true
    · obtain ⟨t, ht⟩ := ih
      exact ⟨c :: t, by simp [hc, ht]⟩
    · exact ⟨[], by simp [hc]⟩

theorem head_dropWhile_false (p : Char → Bool) (l : List Char) (c : Char)
    (h : (l.dropWhile p).head? = some c) : p c = false := by
  induction l with
  | nil => simp at h
  | cons a as ih =>
    rw [List.dropWhile_cons] at h
    by_cases ha : p a = true
    · exact ih (by simpa [ha] using h)
    · rw [if_neg ha, List.head?_cons] at h
      cases h
      simpa using ha

theorem mem_of_mem_dropWhile (p : Char → Bool) (l : List Char) (c : Char)
    (h : c ∈ l.dropWhile p) : c ∈ l := by
  obtain ⟨t, ht⟩ := dropWhile_suffix_ex p l
  rw [← ht]
  exact List.mem_append.mpr (Or.inr h)

theorem mem_of_mem_strip (l : List Char) (c : Char) (h : c ∈ strip l) : c ∈ l := by
  unfold strip at h
  rw [List.mem_reverse] at h
  have h1 := mem_of_mem_dropWhile _ _ _ h
  rw [List.mem_reverse] at h1
  exact mem_of_mem_dropWhile _ _ _ h1

theorem dropWhile_head_stable (w : Char → Bool) (A : List Char)
    (hA : ∀ c, A.head? = some c → w c = false) :
    ((A.reverse.dropWhile w).reverse).dropWhile w = (A.reverse.dropWhile w).reverse := by
  obtain ⟨t, ht⟩ := dropWhile_suffix_ex w A.reverse
  have hArev : A = (A.reverse.dropWhile w).reverse ++ t.reverse := by
    have h3 := congrArg List.reverse ht
    rw [List.reverse_append, List.reverse_reverse] at h3
    exact h3.symm
  cases hrev : (A.reverse.dropWhile w).reverse with
  | nil => rfl
  | cons c rest =>
    have hhead : A.head? = some c := by rw [hArev, hrev]; rfl
    rw [List.dropWhile_cons, hA c hhead]
    simp

theorem strip_idem (l : List Char) : strip (strip l) = strip l := by
  unfold strip
  rw [dropWhile_head_stable Char.isWhitespace (l.dropWhile Char.isWhitespace)
    (fun c h => head_dropWhile_false Char.isWhitespace l c h)]
  rw [List.reverse_reverse, dropWhile_dropWhile]

/-- **C8.** `get_safe_filename` is idempotent: applying it twice gives the
same result as applying it once. -/
theorem get_safe_filename_idem (name : List Char) :
    get_safe_filename (get_safe_filename name) = get_safe_filename name := by
  unfold get_safe_filename
  rw [sanitizeCore_id (strip (sanitizeCore name false)) false
    (fun c hc => sanitizeCore_not_forbidden _ _ _ (mem_of_mem_strip _ _ hc))]
  exact strip_idem _

/-! ### The per-recipient loop (lines 118-195 of `send_whatsapp.py`)

The loop body is deterministic given the behaviour of the outside world:
whether the PDF exists, whether `page.goto` raises, whether the chat
composer appears within the timeout, whether the invalid-number marker is
visible, whether the attach / file-chooser / send steps raise, and whether
the `requests.post` in `log_status` raises.  `Env` packages those
behaviours for one recipient; `processTask` maps them to the emitted
side-effect trace and the reported `Attempt`. -/

/-- A recipient task as built by the CSV ingestion loop. -/
structure Task where
  name : List Char
  raw_number : List Char
deriving DecidableEq, Repr

/-- Outcome tag passed to `log_status`. -/
inductive Status where
  | SUCCESS
  | FAILED
  | ERROR
deriving DecidableEq, Repr

/-- One `log_status` call: the arguments of a reported delivery attempt. -/
structure Attempt where
  name : List Char
  number : List Char
  status : Status
  message : List Char
deriving DecidableEq, Repr

/-- Observable side effects of the loop body. -/
inductive Event where
  | printSending (name number : List Char)
  | navigate (url : List Char)
  | attachClick
  | documentClick
  | setFiles (path : List Char)
  | sendClick
  | sleep (seconds : Nat)
  | logPrint (name number : List Char) (status : Status) (message : List Char)
  | apiPost (name number : List Char) (status : Status) (message : List Char)
  | apiFailPrint
deriving DecidableEq, Repr

/-- Behaviour of the outside world for one recipient. `navExc`,
`attachExc`, `fileExc`, `sendExc` are the exception messages (`str(e)`)
raised at the corresponding step, when any. -/
structure Env where
  pdfExists : Bool
  navExc : Option (List Char)
  chatLoads : Bool
  invalidMarker : Bool
  attachExc : Option (List Char)
  fileExc : Option (List Char)
  sendExc : Option (List Char)
  apiFails : Bool
deriving DecidableEq, Repr

/-- Replace the reporter-failure flag of an environment. -/
def Env.withApi (e : Env) (b : Bool) : Env :=
  ⟨e.pdfExists, e.navExc, e.chatLoads, e.invalidMarker,
   e.attachExc, e.fileExc, e.sendExc, b⟩

def invalidPhoneMsg : List Char := ("Invalid phone number").toList

def notOnWhatsAppMsg : List Char := ("Number not on WhatsApp").toList

def chatTimeoutMsg : List Char := ("Chat load timeout").toList

def messageSentMsg : List Char := ("Message sent").toList

/-- `f"PDF not found: {pdf_path}"`. -/
def pdfNotFoundMsg (path : List Char) : List Char :=
  ("PDF not found: ").toList ++ path

/-- `os.path.join(client_folder, f"{safe_name}.pdf")`. -/
def pdfPath (clientFolder name : List Char) : List Char :=
  clientFolder ++ ('/' :: (get_safe_filename name ++ (".pdf").toList))

/-- The deep-link URL of line 140:
`f"https://web.whatsapp.com/send?phone={formatted_number[1:]}&text=Here is your invitation"`. -/
def mkChatURL (formatted : List Char) : List Char :=
  ("https://web.whatsapp.com").toList ++ ("/send?phone=").toList ++
    formatted.drop 1 ++ ("&text=").toList ++ ("Here is your invitation").toList

/-- `log_status`: always prints locally, then attempts the
`requests.post`; an exception there is caught and only printed. -/
def log_status (apiFails : Bool) (name number : List Char)
    (status : Status) (message : List Char) : List Event :=
  Event.logPrint name number status message ::
    (if apiFails then [Event.apiFailPrint]
     else [Event.apiPost name number status message])

/-- The loop body of `send_whatsapp_messages` for one task: validation,
PDF-existence check, navigation, chat-load wait with timeout
disambiguation, attach / file-chooser / send steps inside the
`try`/`except`, and the post-send pacing sleep. -/
def processTask (clientFolder : List Char) (e : Env) (t : Task) :
    List Event × Attempt :=
  match clean_phone_number t.raw_number with
  | none =>
    (log_status e.apiFails t.name t.raw_number Status.FAILED invalidPhoneMsg,
     ⟨t.name, t.raw_number, Status.FAILED, invalidPhoneMsg⟩)
  | some formatted =>
    let path := pdfPath clientFolder t.name
    if e.pdfExists = false then
      (log_status e.apiFails t.name formatted Status.FAILED (pdfNotFoundMsg path),
       ⟨t.name, formatted, Status.FAILED, pdfNotFoundMsg path⟩)
    else
      let pre := [Event.printSending t.name formatted,
                  Event.navigate (mkChatURL formatted)]
      match e.navExc with
      | some m =>
        (pre ++ log_status e.apiFails t.name formatted Status.ERROR m,
         ⟨t.name, formatted, Status.ERROR, m⟩)
      | none =>
        if e.chatLoads = false then
          if e.invalidMarker then
            (pre ++ log_status e.apiFails t.name formatted Status.FAILED notOnWhatsAppMsg,
             ⟨t.name, formatted, Status.FAILED, notOnWhatsAppMsg⟩)
          else
            (pre ++ log_status e.apiFails t.name formatted Status.FAILED chatTimeoutMsg,
             ⟨t.name, formatted, Status.FAILED, chatTimeoutMsg⟩)
        else
          match e.attachExc with
          | some m =>
            (pre ++ log_status e.apiFails t.name formatted Status.ERROR m,
             ⟨t.name, formatted, Status.ERROR, m⟩)
          | none =>
            match e.fileExc with
            | some m =>
              (pre ++ [Event.attachClick, Event.documentClick] ++
                 log_status e.apiFails t.name formatted Status.ERROR m,
               ⟨t.name, formatted, Status.ERROR, m⟩)
            | none =>
              match e.sendExc with
              | some m =>
                (pre ++ [Event.attachClick, Event.documentClick, Event.setFiles path] ++
                   log_status e.apiFails t.name formatted Status.ERROR m,
                 ⟨t.name, formatted, Status.ERROR, m⟩)
              | none =>
                (pre ++ [Event.attachClick, Event.documentClick, Event.setFiles path,
                         Event.sleep 3, Event.sendClick, Event.sleep 5] ++
                   log_status e.apiFails t.name formatted Status.SUCCESS messageSentMsg ++
                   [Event.sleep 3],
                 ⟨t.name, formatted, Status.SUCCESS, messageSentMsg⟩)

/-- The orchestrator loop: tasks are processed strictly in list order,
each paired with the world's behaviour for that recipient. -/
def runAll (clientFolder : List Char) : List (Env × Task) → List Event × List Attempt
  | [] => ([], [])
  | (e, t) :: rest =>
    let r := processTask clientFolder e t
    let rs := runAll clientFolder rest
    (r.1 ++ rs.1, r.2 :: rs.2)

/-! ### C3: timeout disambiguation -/

theorem notOnWhatsApp_ne_chatTimeout : notOnWhatsAppMsg ≠ chatTimeoutMsg := by
  decide

/-- **C3.** When the chat-load wait times out (composer never appears,
navigation itself did not raise), the reported status is `FAILED`, with
message `"Number not on WhatsApp"` exactly when the invalid-recipient
marker is visible and `"Chat load timeout"` exactly when it is not:
the two messages are never conflated. -/
theorem chat_timeout_disambiguation (cf : List Char) (e : Env) (t : Task)
    (f : List Char) (hf : clean_phone_number t.raw_number = some f)
    (hpdf : e.pdfExists = true) (hnav : e.navExc = none)
    (hload : e.chatLoads = false) :
    (processTask cf e t).2.status = Status.FAILED ∧
    ((processTask cf e t).2.message = notOnWhatsAppMsg ↔ e.invalidMarker = true) ∧
    ((processTask cf e t).2.message = chatTimeoutMsg ↔ e.invalidMarker = false) := by
  by_cases hm : e.invalidMarker = true
  · simp [processTask, hf, hpdf, hnav, hload, hm, notOnWhatsApp_ne_chatTimeout]
  · simp only [Bool.not_eq_true] at hm
    have hne : ¬chatTimeoutMsg = notOnWhatsAppMsg := by decide
    simp [processTask, hf, hpdf, hnav, hload, hm, hne]

/-- Concrete environment: chat load times out, marker visible. -/
def envMarker : Env := ⟨true, none, false, true, none, none, none, false⟩

/-- Concrete environment: chat load times out, marker not visible. -/
def envNoMarker : Env := ⟨true, none, false, false, none, none, none, false⟩

/-- Concrete valid task. -/
def taskA : Task := ⟨("Asha").toList, ("9876543210").toList⟩

/-- Witness for C3: both marker cases at a concrete recipient. -/
theorem chat_timeout_disambiguation_witness :
    ((processTask [] envMarker taskA).2.status = Status.FAILED ∧
     ((processTask [] envMarker taskA).2.message = notOnWhatsAppMsg ↔
       envMarker.invalidMarker = true)) ∧
    ((processTask [] envNoMarker taskA).2.status = Status.FAILED ∧
     ((processTask [] envNoMarker taskA).2.message = chatTimeoutMsg ↔
       envNoMarker.invalidMarker = false)) := by
  have h1 := chat_timeout_disambiguation [] envMarker taskA
    (("+919876543210").toList) (by decide) rfl rfl rfl
  have h2 := chat_timeout_disambiguation [] envNoMarker taskA
    (("+919876543210").toList) (by decide) rfl rfl rfl
  exact ⟨⟨h1.1, h1.2.1⟩, ⟨h2.1, h2.2.2⟩⟩

/-! ### C4: missing PDF short-circuits -/

/-- **C4.** When the artifact `{clientFolder}/{get_safe_filename(name)}.pdf`
does not exist, the recipient is reported `FAILED` with a message carrying
the attempted path, and the emitted trace is exactly the `log_status`
events: no navigation, attach, file selection or send occurs. -/
theorem pdf_missing_short_circuits (cf : List Char) (e : Env) (t : Task)
    (f : List Char) (hf : clean_phone_number t.raw_number = some f)
    (hpdf : e.pdfExists = false) :
    (processTask cf e t).2 =
      ⟨t.name, f, Status.FAILED, pdfNotFoundMsg (pdfPath cf t.name)⟩ ∧
    (processTask cf e t).1 =
      log_status e.apiFails t.name f Status.FAILED (pdfNotFoundMsg (pdfPath cf t.name)) ∧
    (∀ u, Event.navigate u ∉ (processTask cf e t).1) ∧
    Event.attachClick ∉ (processTask cf e t).1 ∧
    Event.sendClick ∉ (processTask cf e t).1 ∧
    (∀ p, Event.setFiles p ∉ (processTask cf e t).1) := by
  have htr : (processTask cf e t).1 =
      log_status e.apiFails t.name f Status.FAILED (pdfNotFoundMsg (pdfPath cf t.name)) := by
    simp [processTask, hf, hpdf]
  refine ⟨by simp [processTask, hf, hpdf], htr, ?_, ?_, ?_, ?_⟩ <;>
    rw [htr] <;> cases hapi : e.apiFails <;> simp [log_status, hapi]

/-- Concrete environment: artifact missing, everything else benign. -/
def envNoPdf : Env := ⟨false, none, true, false, none, none, none, false⟩

/-- Witness for C4 at a concrete recipient and client folder. -/
theorem pdf_missing_short_circuits_witness :
    (processTask (("out").toList) envNoPdf taskA).2 =
      ⟨taskA.name, ("+919876543210").toList, Status.FAILED,
       pdfNotFoundMsg (pdfPath (("out").toList) taskA.name)⟩ ∧
    (∀ u, Event.navigate u ∉ (processTask (("out").toList) envNoPdf taskA).1) := by
  have h := pdf_missing_short_circuits (("out").toList) envNoPdf taskA
    (("+919876543210").toList) (by decide) rfl
  exact ⟨h.1, h.2.2.1⟩

/-! ### C5: pacing -/

/-- Discriminator for `time.sleep` events. -/
def isSleep : Event → Bool
  | Event.sleep _ => true
  | _ => false

/-- Concrete task whose raw number is empty, hence invalid. -/
def taskEmpty : Task := ⟨("Noni").toList, []⟩

/-- Benign environment used by the C5 counterexample. -/
def envBenign : Env := ⟨true, none, true, false, none, none, none, false⟩

/-- **C5 counterexample.** A recipient with an invalid number reaches a
terminal `FAILED` outcome, yet its attempt performs *no* sleep at all:
the ~3s inter-recipient pacing of line 192 runs only on the success path,
so the claim "the delay occurs after every attempt, success or failure
alike" is false. -/
theorem pacing_missing_on_failure :
    (processTask [] envBenign taskEmpty).2.status = Status.FAILED ∧
    (processTask [] envBenign taskEmpty).1.filter isSleep = [] := by
  decide

/-- **C5 (amended).** The fixed ~3s inter-recipient pacing delay is
performed exactly after `SUCCESS` attempts: the trace ends with
`sleep 3` iff the attempt succeeded; on `FAILED` and `ERROR` paths the
loop moves to the next recipient with no pacing delay. -/
theorem pacing_only_after_success (cf : List Char) (e : Env) (t : Task) :
    (processTask cf e t).2.status = Status.SUCCESS ↔
    (processTask cf e t).1.reverse.head? = some (Event.sleep 3) := by
  cases hf : clean_phone_number t.raw_number <;>
  cases hp : e.pdfExists <;>
  cases hn : e.navExc <;>
  cases hc : e.chatLoads <;>
  cases hm : e.invalidMarker <;>
  cases ha : e.attachExc <;>
  cases hfe : e.fileExc <;>
  cases hs : e.sendExc <;>
  cases hapi : e.apiFails <;>
  simp [processTask, hf, hp, hn, hc, hm, ha, hfe, hs, hapi, log_status]

/-! ### C6: reporter isolation -/

theorem processTask_attempt_api (cf : List Char) (e : Env) (t : Task) (b : Bool) :
    (processTask cf (e.withApi b) t).2 = (processTask cf e t).2 := by
  cases hf : clean_phone_number t.raw_number <;>
  cases hp : e.pdfExists <;>
  cases hn : e.navExc <;>
  cases hc : e.chatLoads <;>
  cases hm : e.invalidMarker <;>
  cases ha : e.attachExc <;>
  cases hfe : e.fileExc <;>
  cases hs : e.sendExc <;>
  simp [processTask, Env.withApi, hf, hp, hn, hc, hm, ha, hfe, hs]

/-- **C6.** `log_status` always prints the outcome locally (the local
print is the first effect of every report), and a failing network call to
the status sink is swallowed inside `log_status`: forcing the reporter to
fail (or succeed) for every recipient changes no recipient's computed
attempt, and the run still reports one attempt per task. -/
theorem reporter_isolated (cf : List Char) (l : List (Env × Task)) (b : Bool) :
    (runAll cf (l.map (fun p => (p.1.withApi b, p.2)))).2 = (runAll cf l).2 ∧
    (runAll cf l).2.length = l.length ∧
    (∀ (b' : Bool) (n num : List Char) (st : Status) (m : List Char),
      (log_status b' n num st m).head? = some (Event.logPrint n num st m)) := by
  refine ⟨?_, ?_, fun b' n num st m => rfl⟩
  · induction l with
    | nil => rfl
    | cons p rest ih =>
      simp only [List.map_cons, runAll, processTask_attempt_api, ih]
  · induction l with
    | nil => rfl
    | cons p rest ih =>
      simp only [runAll, List.length_cons, ih]

/-! ### C7: ordering and recipient-boundary exception handling -/

/-- **C7.** The orchestrator's reported attempts are exactly one per task,
in input order (the trace is the in-order concatenation of the
per-recipient traces, so attempt *i+1* starts only after attempt *i*'s
status is reported); and an exception raised at any delivery step
(navigation, attach, file chooser, send) is caught at the recipient
boundary, yielding `ERROR` with the exception's message verbatim while
leaving every other recipient's processing intact. -/
theorem orchestrator_sequential (cf : List Char) (l : List (Env × Task)) :
    (runAll cf l).2 = l.map (fun p => (processTask cf p.1 p.2).2) ∧
    (runAll cf l).1 = (l.map (fun p => (processTask cf p.1 p.2).1)).flatten ∧
    (∀ (e : Env) (t : Task) (m f : List Char),
      clean_phone_number t.raw_number = some f → e.pdfExists = true →
      (e.navExc = some m ∨
       (e.navExc = none ∧ e.chatLoads = true ∧
        (e.attachExc = some m ∨
         (e.attachExc = none ∧
          (e.fileExc = some m ∨ (e.fileExc = none ∧ e.sendExc = some m)))))) →
      (processTask cf e t).2 = ⟨t.name, f, Status.ERROR, m⟩) := by
  refine ⟨?_, ?_, ?_⟩
  · induction l with
    | nil => rfl
    | cons p rest ih => simp only [runAll, List.map_cons, ih]
  · induction l with
    | nil => rfl
    | cons p rest ih => simp only [runAll, List.map_cons, List.flatten_cons, ih]
  · intro e t m f hf hp hcase
    rcases hcase with hn | ⟨hn, hc, ha | ⟨ha, hfe | ⟨hfe, hs⟩⟩⟩
    · simp [processTask, hf, hp, hn]
    · simp [processTask, hf, hp, hn, hc, ha]
    · simp [processTask, hf, hp, hn, hc, ha, hfe]
    · simp [processTask, hf, hp, hn, hc, ha, hfe, hs]

/-- Environment whose attach step raises a selector-not-found exception. -/
def envSelectorExc : Env :=
  ⟨true, none, true, false, some (("selector not found").toList), none, none, false⟩

/-- Environment in which every step succeeds. -/
def envAllOk : Env := ⟨true, none, true, false, none, none, none, false⟩

/-- Second concrete valid task. -/
def taskB : Task := ⟨("Ravi").toList, ("98765 43210").toList⟩

/-- Witness for C7: a two-recipient run whose first recipient's attach
step throws; the run reports `ERROR` with the verbatim message followed by
the second recipient's attempt, in order. -/
theorem orchestrator_sequential_witness :
    (runAll [] [(envSelectorExc, taskA), (envAllOk, taskB)]).2 =
      [(processTask [] envSelectorExc taskA).2, (processTask [] envAllOk taskB).2] ∧
    (processTask [] envSelectorExc taskA).2 =
      ⟨taskA.name, ("+919876543210").toList, Status.ERROR,
       ("selector not found").toList⟩ := by
  constructor
  · rw [(orchestrator_sequential [] [(envSelectorExc, taskA), (envAllOk, taskB)]).1]
    rfl
  · exact (orchestrator_sequential [] [(envSelectorExc, taskA), (envAllOk, taskB)]).2.2
      envSelectorExc taskA (("selector not found").toList) (("+919876543210").toList)
      (by decide) rfl (Or.inr ⟨rfl, rfl, Or.inl rfl⟩)

/-! ### C9: the deep-link URL -/

/-- **C9.** Every navigation event in a recipient's trace uses the URL
`https://web.whatsapp.com/send?phone={digits}&text=Here is your invitation`
where `digits` is the canonical dispatch address with the leading `+`
removed, i.e. the country-code digits `91` followed by the last 10 digits
of the recipient's number. -/
theorem deeplink_url (cf : List Char) (e : Env) (t : Task) (u : List Char)
    (h : Event.navigate u ∈ (processTask cf e t).1) :
    ∃ f last10, clean_phone_number t.raw_number = some f ∧
      f = COUNTRY_CODE ++ last10 ∧ last10.length = 10 ∧
      u = ("https://web.whatsapp.com").toList ++ ("/send?phone=").toList ++
          (("91").toList ++ last10) ++ ("&text=").toList ++
          ("Here is your invitation").toList := by
  cases hf : clean_phone_number t.raw_number with
  | none =>
    exfalso
    cases hapi : e.apiFails <;>
      simp [processTask, hf, log_status, hapi] at h
  | some f =>
    have hu : u = mkChatURL f := by
      cases hp : e.pdfExists <;>
      cases hn : e.navExc <;>
      cases hc : e.chatLoads <;>
      cases hm : e.invalidMarker <;>
      cases ha : e.attachExc <;>
      cases hfe : e.fileExc <;>
      cases hs : e.sendExc <;>
      cases hapi : e.apiFails <;>
      simp [processTask, hf, hp, hn, hc, hm, ha, hfe, hs, hapi, log_status] at h <;>
      simp [mkChatURL, h]
    have hstruct := (clean_phone_number_correct t.raw_number).2 f hf
    obtain ⟨discarded, last10, _, hlen, hfeq⟩ := hstruct
    refine ⟨f, last10, rfl, hfeq, hlen, ?_⟩
    rw [hu, hfeq]
    simp [mkChatURL, COUNTRY_CODE]

/-- Witness for C9: the concrete URL used for `taskA` in the all-ok
environment. -/
theorem deeplink_url_witness :
    ∃ f last10, clean_phone_number taskA.raw_number = some f ∧
      f = COUNTRY_CODE ++ last10 ∧ last10.length = 10 ∧
      mkChatURL (("+919876543210").toList) =
        ("https://web.whatsapp.com").toList ++ ("/send?phone=").toList ++
        (("91").toList ++ last10) ++ ("&text=").toList ++
        ("Here is your invitation").toList := by
  exact deeplink_url [] envAllOk taskA (mkChatURL (("+919876543210").toList))
    (by decide)

/-! ### C10: CSV ingestion (lines 69-79) -/

/-- One CSV row as seen by `csv.DictReader`: `row.get` yields `none` for
a missing field. -/
structure Row where
  name : Option (List Char)
  number : Option (List Char)
deriving DecidableEq, Repr

/-- The ingestion loop body: `name = row.get('name')`;
`if name: name = name.strip()`; for the number,
`if raw_number: raw_number = raw_number.strip() else: raw_number = ""`;
finally `if not name: continue`.  Python truthiness of a string is
"not `None` and not empty". -/
def ingestRow (r : Row) : Option Task :=
  let name : Option (List Char) :=
    match r.name with
    | none => none
    | some n => if n.isEmpty then some n else some (strip n)
  let raw : List Char :=
    match r.number with
    | none => []
    | some m => if m.isEmpty then [] else strip m
  match name with
  | none => none
  | some n => if n.isEmpty then none else some ⟨n, raw⟩

/-- The whole ingestion pass over the parsed CSV rows. -/
def ingest (rows : List Row) : List Task := rows.filterMap ingestRow

/-- **C10.** A row whose `name` is missing, empty or whitespace-only is
silently dropped: it yields no task, hence no attempt or report.  A row
with a good name but a missing or empty `number` is kept with an empty raw
number, and such a task is later reported `FAILED` with
`"Invalid phone number"` (for any environment), not treated as a
configuration error. -/
theorem ingestion_row_policy :
    (∀ r : Row, (r.name = none ∨ (∃ n, r.name = some n ∧ strip n = [])) →
      ingestRow r = none ∧ ∀ rest, ingest (r :: rest) = ingest rest) ∧
    (∀ (r : Row) (n : List Char), r.name = some n → strip n ≠ [] →
      (r.number = none ∨ r.number = some []) →
      ingestRow r = some ⟨strip n, []⟩ ∧
      ∀ (cf : List Char) (e : Env),
        (processTask cf e ⟨strip n, []⟩).2 =
          ⟨strip n, [], Status.FAILED, invalidPhoneMsg⟩) := by
  constructor
  · intro r hr
    have hnone : ingestRow r = none := by
      rcases hr with hn | ⟨n, hn, hs⟩
      · simp [ingestRow, hn]
      · by_cases he : n.isEmpty
        · simp [ingestRow, hn, he]
        · simp [ingestRow, hn, he, hs]
    exact ⟨hnone, fun rest => by simp [ingest, List.filterMap_cons, hnone]⟩
  · intro r n hn hs hnum
    have hne : ¬n.isEmpty := by
      intro he
      rw [List.isEmpty_iff] at he
      subst he
      exact hs rfl
    have hrow : ingestRow r = some ⟨strip n, []⟩ := by
      rcases hnum with hm | hm <;>
        simp [ingestRow, hn, hm, hne, List.isEmpty_iff, hs]
    refine ⟨hrow, fun cf e => ?_⟩
    have hclean : clean_phone_number ([] : List Char) = none := by decide
    simp [processTask, hclean]

/-- Witness for C10: a whitespace-only name is dropped; a good name with
a missing number is kept with an empty raw number and fails with
`"Invalid phone number"`. -/
theorem ingestion_row_policy_witness :
    ingestRow ⟨some (("   ").toList), some (("9876543210").toList)⟩ = none ∧
    ingestRow ⟨some ((" Asha ").toList), none⟩ =
      some ⟨("Asha").toList, []⟩ ∧
    (processTask [] envAllOk ⟨("Asha").toList, []⟩).2 =
      ⟨("Asha").toList, [], Status.FAILED, invalidPhoneMsg⟩ := by
  have h1 := ingestion_row_policy.1 ⟨some (("   ").toList), some (("9876543210").toList)⟩
    (Or.inr ⟨("   ").toList, rfl, by decide⟩)
  have h2 := ingestion_row_policy.2 ⟨some ((" Asha ").toList), none⟩
    ((" Asha ").toList) rfl (by decide) (Or.inl rfl)
  have hstrip : strip ((" Asha ").toList) = ("Asha").toList := by decide
  refine ⟨h1.1, ?_, ?_⟩
  · rw [← hstrip]
    exact h2.1
  · rw [← hstrip]
    exact h2.2 [] envAllOk

end Kankotri
